import Mathlib

/-!
# Verification of parsecache (Go)

A shallow embedding of `parsecache.go`: a cache of parsed files and directory
listings on top of a filesystem.  Times and durations are modelled as `Int`
(nanoseconds); the Go zero `time.Time` is modelled as `0`, and `time.Now()` is
passed explicitly as a parameter `now`.  Per-call filesystem behaviour (the
outcomes of `open`, `Stat`, `ReadDir` and `parse`) is passed explicitly as a
record of `Except` values; the result of a `Get` records the returned value,
the returned error, the entry state after the call, and a trace of which
filesystem steps were performed.  Registries (`map[string]*CachedFile` /
`map[string]*CachedDir`) are modelled as functions `String → Option _`.
-/

/-- Split a character list on `'/'`, like Go's `strings.Split(s, "/")`
restricted to the path separator: `splitSlash [] "/a/b".data = ["", "a", "b"]`.
`acc` holds the (reversed) characters of the current component. -/
def splitSlash : List Char → List Char → List String
  | acc, [] => [String.mk acc.reverse]
  | acc, c :: rest =>
    if c = '/' then String.mk acc.reverse :: splitSlash [] rest
    else splitSlash (c :: acc) rest

/-- The components of a rooted path after resolving `""`/`"."`/`".."`
components against a stack, as Go's `path/filepath.Clean` does for a rooted
path: empty and `"."` components are dropped, `".."` pops the previous
component (or is dropped at the root). -/
def resolveDots : List String → List String → List String
  | stack, [] => stack.reverse
  | stack, c :: rest =>
    if c = "" ∨ c = "." then resolveDots stack rest
    else if c = ".." then resolveDots stack.tail rest
    else resolveDots (c :: stack) rest

/-- Model of `cleanPath` from `parsecache.go`: `filepath.Clean("/" + path)` (Unix).
Prepending `"/"` makes the path rooted, so `Clean` resolves all `"."` and
`".."` components and the result always starts with `"/"`. -/
def cleanPath (path : String) : String :=
  "/" ++ String.intercalate "/" (resolveDots [] (splitSlash [] ("/" ++ path).data))

/-- Outcome of `opener`: either the path actually passed to `fs.Open`, or a
Go panic. -/
inductive OpenerOutcome where
  | ok (fsPath : String)
  | panicked (msg : String)
deriving DecidableEq, Repr

/-- Model of `opener` from `parsecache.go` (the path-rewriting part): `"/"` becomes
`"."`, a path starting with `'/'` loses the leading slash, and any other path
panics with "path not cleaned correctly".  (On Unix `os.PathSeparator` is also
`'/'`.) -/
def opener (path : String) : OpenerOutcome :=
  if path = "/" then .ok "."
  else
    match path.data with
    | '/' :: rest => .ok (String.mk rest)
    | _ => .panicked "path not cleaned correctly"

/-- The part of Go's `fs.FileInfo` the cache reads: `Size()` and `ModTime()`
(mod time as integer nanoseconds). -/
structure FileInfo where
  size : Int
  modTime : Int
deriving DecidableEq, Repr

/-- Which filesystem operations a `Get` call performed: `opened` for the
`open()` call, `statted` for `file.Stat()`, `readOrParsed` for
`dir.ReadDir(0)` / `parse(file)`. -/
structure FsTrace where
  opened : Bool
  statted : Bool
  readOrParsed : Bool
deriving DecidableEq, Repr

/-- Model of `CachedFile[T]` from `parsecache.go`.  `lastLoadTime = 0` models the zero
`time.Time` (never successfully loaded). -/
structure CachedFile (T : Type) where
  lastLoadTime : Int := 0
  lastSize : Int := 0
  lastModTime : Int := 0
  content : T
deriving DecidableEq, Repr

/-- Model of `!f.lastLoadTime.IsZero()`: whether the entry was ever successfully
loaded. -/
def CachedFile.loaded (f : CachedFile T) : Bool :=
  f.lastLoadTime != 0

/-- Model of `CachedDir` from `parsecache.go`, with directory entries abstracted to a
type `D`. -/
structure CachedDir (D : Type) where
  lastLoadTime : Int := 0
  lastSize : Int := 0
  lastModTime : Int := 0
  entries : List D := []
deriving DecidableEq, Repr

/-- Model of `!f.lastLoadTime.IsZero()`: whether the entry was ever successfully
loaded. -/
def CachedDir.loaded (f : CachedDir D) : Bool :=
  f.lastLoadTime != 0

/-- The filesystem's behaviour for one file `Get` call: the outcome of
`open()`, of `file.Stat()`, and of `parse(file)`, abstracted over the error
type `E`. -/
structure FileSys (T E : Type) where
  openRes : Except E Unit
  statRes : Except E FileInfo
  parseRes : Except E T

/-- The filesystem's behaviour for one directory `Get` call: the outcome of
`open()`, `file.Stat()`, whether the handle implements `fs.ReadDirFile`, and
the outcome of `dir.ReadDir(0)`. -/
structure DirSys (D E : Type) where
  openRes : Except E Unit
  statRes : Except E FileInfo
  isReadDirFile : Bool
  readDirRes : Except E (List D)

/-- Result of `CachedFile.Get`: returned value, returned error, entry state
after the call, and the filesystem-operation trace. -/
structure FileGetResult (T E : Type) where
  value : T
  error : Option E
  state : CachedFile T
  trace : FsTrace
deriving DecidableEq, Repr

/-- Model of `CachedFile.Get` from `parsecache.go`, with `loadTime := time.Now()`
passed as `now`.  Mirrors the source exactly: the TTL fast path tests
`loadTime.Sub(f.lastLoadTime) < maxAge` (with no `loaded` guard); the
stat-validation path tests `loaded && size == lastSize && modTime ==
lastModTime`; on success all four fields are updated. -/
def CachedFile.Get (f : CachedFile T) (sys : FileSys T E) (now maxAge : Int) :
    FileGetResult T E :=
  if now - f.lastLoadTime < maxAge then
    ⟨f.content, none, f, ⟨false, false, false⟩⟩
  else
    match sys.openRes with
    | .error e => ⟨f.content, some e, f, ⟨true, false, false⟩⟩
    | .ok _ =>
      match sys.statRes with
      | .error e => ⟨f.content, some e, f, ⟨true, true, false⟩⟩
      | .ok stats =>
        if f.loaded = true ∧ stats.size = f.lastSize ∧ stats.modTime = f.lastModTime then
          ⟨f.content, none, { f with lastLoadTime := now }, ⟨true, true, false⟩⟩
        else
          match sys.parseRes with
          | .error e => ⟨f.content, some e, f, ⟨true, true, true⟩⟩
          | .ok c => ⟨c, none, ⟨now, stats.size, stats.modTime, c⟩, ⟨true, true, true⟩⟩

/-- Outcome of a directory `Get`: either a Go panic, or a return of
(entries, error, entry state after the call). -/
inductive DirOutcome (D E : Type) where
  | panicked (msg : String)
  | ret (value : List D) (error : Option E) (state : CachedDir D)
deriving DecidableEq, Repr

/-- Result of `CachedDir.Get`: the outcome plus the filesystem-operation
trace. -/
structure DirGetResult (D E : Type) where
  out : DirOutcome D E
  trace : FsTrace
deriving DecidableEq, Repr

/-- Model of `CachedDir.Get` from `parsecache.go`, with `loadTime := time.Now()`
passed as `now`.  The TTL fast path tests `loaded && loadTime.Sub(...) <
maxAge`; the stat-validation path tests `loaded && size == lastSize &&
modTime == lastModTime`; a handle that does not implement `fs.ReadDirFile`
panics; on success all four fields are updated. -/
def CachedDir.Get (f : CachedDir D) (sys : DirSys D E) (now maxAge : Int) :
    DirGetResult D E :=
  if f.loaded = true ∧ now - f.lastLoadTime < maxAge then
    ⟨.ret f.entries none f, ⟨false, false, false⟩⟩
  else
    match sys.openRes with
    | .error e => ⟨.ret f.entries (some e) f, ⟨true, false, false⟩⟩
    | .ok _ =>
      match sys.statRes with
      | .error e => ⟨.ret f.entries (some e) f, ⟨true, true, false⟩⟩
      | .ok stats =>
        if f.loaded = true ∧ stats.size = f.lastSize ∧ stats.modTime = f.lastModTime then
          ⟨.ret f.entries none { f with lastLoadTime := now }, ⟨true, true, false⟩⟩
        else if sys.isReadDirFile = false then
          ⟨.panicked "directory doesn't implement ReadDirFile", ⟨true, true, false⟩⟩
        else
          match sys.readDirRes with
          | .error e => ⟨.ret f.entries (some e) f, ⟨true, true, true⟩⟩
          | .ok entries =>
            ⟨.ret entries none ⟨now, stats.size, stats.modTime, entries⟩, ⟨true, true, true⟩⟩

/-- Model of `ConcurrentCachedFile.Get`, in a sequential model (the locks are no-ops):
the read-locked fast path checks `ok && time.Since(cachedAt) < maxAge` using
`Cached()` (so with a `loaded` guard, unlike `CachedFile.Get`); otherwise the
underlying `CachedFile.Get` runs under the write lock. -/
def ConcurrentCachedFile.Get (f : CachedFile T) (sys : FileSys T E) (now maxAge : Int) :
    FileGetResult T E :=
  if f.loaded = true ∧ now - f.lastLoadTime < maxAge then
    ⟨f.content, none, f, ⟨false, false, false⟩⟩
  else
    f.Get sys now maxAge

/-- Model of `ConcurrentCachedDir.Get`, in a sequential model (the locks are no-ops):
the read-locked fast path via `Cached()`, then the underlying
`CachedDir.Get`. -/
def ConcurrentCachedDir.Get (f : CachedDir D) (sys : DirSys D E) (now maxAge : Int) :
    DirGetResult D E :=
  if f.loaded = true ∧ now - f.lastLoadTime < maxAge then
    ⟨.ret f.entries none f, ⟨false, false, false⟩⟩
  else
    f.Get sys now maxAge

/-- Model of `FsCache[T]` from `parsecache.go` (single-threaded): the two registries,
modelled as functions from path to entry, plus the default `MaxAge`.  The
filesystem and parser are abstracted into the per-call `FileSys`/`DirSys`
arguments. -/
structure FsCache (T D : Type) where
  MaxAge : Int
  dirs : String → Option (CachedDir D)
  files : String → Option (CachedFile T)

/-- Model of `FsCache.GetFileEntry`: look up `cleanPath path` in the file registry. -/
def FsCache.GetFileEntry (cache : FsCache T D) (path : String) : Option (CachedFile T) :=
  cache.files (cleanPath path)

/-- Model of `FsCache.GetDirEntry`: look up `cleanPath path` in the directory
registry. -/
def FsCache.GetDirEntry (cache : FsCache T D) (path : String) : Option (CachedDir D) :=
  cache.dirs (cleanPath path)

/-- Model of `FsCache.GetFileWithMaxAge`: find-or-create the entry for
`cleanPath file`, run `CachedFile.Get` on it, store the updated entry, and
delete the entry from the registry whenever `Get` returned an error.  Returns
(content, error, updated cache). -/
def FsCache.GetFileWithMaxAge [Inhabited T] (cache : FsCache T D) (file : String)
    (sys : FileSys T E) (now maxAge : Int) : T × Option E × FsCache T D :=
  let path := cleanPath file
  let cached := (cache.files path).getD ⟨0, 0, 0, default⟩
  let r := CachedFile.Get cached sys now maxAge
  match r.error with
  | some e =>
    (r.value, some e, { cache with files := fun p => if p = path then none else cache.files p })
  | none =>
    (r.value, none, { cache with files := fun p => if p = path then some r.state else cache.files p })

/-- Model of `FsCache.GetFile`: `GetFileWithMaxAge` with the cache's default
`MaxAge`. -/
def FsCache.GetFile [Inhabited T] (cache : FsCache T D) (file : String)
    (sys : FileSys T E) (now : Int) : T × Option E × FsCache T D :=
  cache.GetFileWithMaxAge file sys now cache.MaxAge

/-- Outcome of a registry-level directory `Get`: either a Go panic (with the
registry state at the moment of the panic) or a return of (entries, error,
updated cache). -/
inductive DirCallOutcome (C D E : Type) where
  | panicked (msg : String) (cache : C)
  | ret (entries : List D) (error : Option E) (cache : C)

/-- Model of `FsCache.GetDirWithMaxAge`: find-or-create the entry for `cleanPath dir`,
run `CachedDir.Get` on it, and delete the entry whenever `Get` returned an
error.  In the Go code the (possibly fresh) entry is inserted into the map
*before* `Get` runs, so if `Get` panics the entry stays in the map, untouched
(the panic fires before any field write). -/
def FsCache.GetDirWithMaxAge (cache : FsCache T D) (dir : String)
    (sys : DirSys D E) (now maxAge : Int) : DirCallOutcome (FsCache T D) D E :=
  let path := cleanPath dir
  let cached := (cache.dirs path).getD ⟨0, 0, 0, []⟩
  let r := CachedDir.Get cached sys now maxAge
  match r.out with
  | .panicked msg =>
    .panicked msg { cache with dirs := fun p => if p = path then some cached else cache.dirs p }
  | .ret v (some e) _ =>
    .ret v (some e) { cache with dirs := fun p => if p = path then none else cache.dirs p }
  | .ret v none s =>
    .ret v none { cache with dirs := fun p => if p = path then some s else cache.dirs p }

/-- Model of `FsCache.GetDir`: `GetDirWithMaxAge` with the cache's default `MaxAge`. -/
def FsCache.GetDir (cache : FsCache T D) (dir : String)
    (sys : DirSys D E) (now : Int) : DirCallOutcome (FsCache T D) D E :=
  cache.GetDirWithMaxAge dir sys now cache.MaxAge

/-- Model of `ConcurrentFsCache[T]` from `parsecache.go`, in a sequential model: the
two registries and the default `maxAge` (the locks are no-ops). -/
structure ConcurrentFsCache (T D : Type) where
  maxAge : Int
  dirs : String → Option (CachedDir D)
  files : String → Option (CachedFile T)

/-- Model of `ConcurrentFsCache.GetFileEntry`. -/
def ConcurrentFsCache.GetFileEntry (cache : ConcurrentFsCache T D) (path : String) :
    Option (CachedFile T) :=
  cache.files (cleanPath path)

/-- Model of `ConcurrentFsCache.GetDirEntry`. -/
def ConcurrentFsCache.GetDirEntry (cache : ConcurrentFsCache T D) (path : String) :
    Option (CachedDir D) :=
  cache.dirs (cleanPath path)

/-- Model of `ConcurrentFsCache.getFile`: lookup `cleanPath file`; if present, run the
entry's `Get` (in-place mutation through the pointer, so the updated state is
always visible in the map); if absent, run `Get` on a fresh unpublished entry
and insert it only when the load succeeded.  The effective max age is `maxAge`
if `useMaxAge`, else the cache's default. -/
def ConcurrentFsCache.getFile [Inhabited T] (cache : ConcurrentFsCache T D) (file : String)
    (sys : FileSys T E) (now maxAge : Int) (useMaxAge : Bool) :
    T × Option E × ConcurrentFsCache T D :=
  let path := cleanPath file
  let age := if useMaxAge then maxAge else cache.maxAge
  match cache.files path with
  | some cached =>
    let r := ConcurrentCachedFile.Get cached sys now age
    (r.value, r.error,
      { cache with files := fun p => if p = path then some r.state else cache.files p })
  | none =>
    let r := ConcurrentCachedFile.Get ⟨0, 0, 0, default⟩ sys now age
    match r.error with
    | none =>
      (r.value, none,
        { cache with files := fun p => if p = path then some r.state else cache.files p })
    | some e => (r.value, some e, cache)

/-- Model of `ConcurrentFsCache.GetFile`: `getFile` with the default max age. -/
def ConcurrentFsCache.GetFile [Inhabited T] (cache : ConcurrentFsCache T D) (file : String)
    (sys : FileSys T E) (now : Int) : T × Option E × ConcurrentFsCache T D :=
  cache.getFile file sys now 0 false

/-- Model of `ConcurrentFsCache.GetFileWithMaxAge`: `getFile` with the supplied max
age. -/
def ConcurrentFsCache.GetFileWithMaxAge [Inhabited T] (cache : ConcurrentFsCache T D)
    (file : String) (sys : FileSys T E) (now maxAge : Int) :
    T × Option E × ConcurrentFsCache T D :=
  cache.getFile file sys now maxAge true

/-- Model of `ConcurrentFsCache.getDir`: like `getFile` for the directory registry.
If the entry existed, its (possibly updated) state is visible in the map; a
fresh entry is inserted only on success; on a panic nothing is inserted and
no entry state changed (the panic fires before any field write). -/
def ConcurrentFsCache.getDir (cache : ConcurrentFsCache T D) (dir : String)
    (sys : DirSys D E) (now maxAge : Int) (useMaxAge : Bool) :
    DirCallOutcome (ConcurrentFsCache T D) D E :=
  let path := cleanPath dir
  let age := if useMaxAge then maxAge else cache.maxAge
  match cache.dirs path with
  | some cached =>
    let r := ConcurrentCachedDir.Get cached sys now age
    match r.out with
    | .panicked msg => .panicked msg cache
    | .ret v err s =>
      .ret v err { cache with dirs := fun p => if p = path then some s else cache.dirs p }
  | none =>
    let r := ConcurrentCachedDir.Get ⟨0, 0, 0, []⟩ sys now age
    match r.out with
    | .panicked msg => .panicked msg cache
    | .ret v none s =>
      .ret v none { cache with dirs := fun p => if p = path then some s else cache.dirs p }
    | .ret v (some e) _ => .ret v (some e) cache

/-- Model of `ConcurrentFsCache.GetDir`: `getDir` with the default max age. -/
def ConcurrentFsCache.GetDir (cache : ConcurrentFsCache T D) (dir : String)
    (sys : DirSys D E) (now : Int) : DirCallOutcome (ConcurrentFsCache T D) D E :=
  cache.getDir dir sys now 0 false

/-- Model of `ConcurrentFsCache.GetDirWithMaxAge`: `getDir` with the supplied max
age. -/
def ConcurrentFsCache.GetDirWithMaxAge (cache : ConcurrentFsCache T D) (dir : String)
    (sys : DirSys D E) (now maxAge : Int) : DirCallOutcome (ConcurrentFsCache T D) D E :=
  cache.getDir dir sys now maxAge true

/-! ## Claim theorems -/

/-- C1: For every previously loaded entry (file or directory) and every `Get`
call whose elapsed time since `lastLoadTime` is strictly less than `maxAge`,
`Get` returns the cached value with no error, leaves the entry unchanged, and
performs no filesystem operation at all (no open, stat, or read). -/
theorem c1_ttl_fast_path_no_fs {T D E : Type} (f : CachedFile T) (d : CachedDir D)
    (fsys : FileSys T E) (dsys : DirSys D E) (now maxAge : Int)
    (hf : f.loaded = true) (hffresh : now - f.lastLoadTime < maxAge)
    (hd : d.loaded = true) (hdfresh : now - d.lastLoadTime < maxAge) :
    f.Get fsys now maxAge = ⟨f.content, none, f, ⟨false, false, false⟩⟩ ∧
    d.Get dsys now maxAge = ⟨.ret d.entries none d, ⟨false, false, false⟩⟩ := by
  constructor
  · unfold CachedFile.Get
    rw [if_pos hffresh]
  · unfold CachedDir.Get
    rw [if_pos ⟨hd, hdfresh⟩]

/-- Witness for C1 at a concrete loaded entry within the freshness window. -/
theorem c1_ttl_fast_path_no_fs_witness :
    CachedFile.Get (T := Nat) (E := Nat) ⟨5, 1, 2, 42⟩ ⟨.error 9, .error 9, .error 9⟩ 6 10 =
      ⟨42, none, ⟨5, 1, 2, 42⟩, ⟨false, false, false⟩⟩ ∧
    CachedDir.Get (D := Nat) (E := Nat) ⟨5, 1, 2, [3]⟩ ⟨.error 9, .error 9, false, .error 9⟩ 6 10 =
      ⟨.ret [3] none ⟨5, 1, 2, [3]⟩, ⟨false, false, false⟩⟩ :=
  c1_ttl_fast_path_no_fs ⟨5, 1, 2, 42⟩ ⟨5, 1, 2, [3]⟩ ⟨.error 9, .error 9, .error 9⟩
    ⟨.error 9, .error 9, false, .error 9⟩ 6 10 (by decide) (by decide) (by decide) (by decide)

/-- C3: on any failed `Get` (file or directory), the entry state after the
call is exactly the entry state before it — no field is partially updated on
an error path. -/
theorem c3_error_leaves_entry_unchanged {T D E : Type} (f : CachedFile T) (d : CachedDir D)
    (fsys : FileSys T E) (dsys : DirSys D E) (now maxAge : Int) :
    (∀ e : E, (f.Get fsys now maxAge).error = some e → (f.Get fsys now maxAge).state = f) ∧
    (∀ (v : List D) (e : E) (s : CachedDir D) (tr : FsTrace),
      d.Get dsys now maxAge = ⟨.ret v (some e) s, tr⟩ → s = d) := by
  constructor
  · intro e he
    unfold CachedFile.Get at he ⊢
    by_cases h1 : now - f.lastLoadTime < maxAge
    · simp [h1] at he
    · simp only [if_neg h1] at he ⊢
      cases ho : fsys.openRes with
      | error eo => simp [ho]
      | ok u =>
        simp only [ho] at he ⊢
        cases hs : fsys.statRes with
        | error es => simp [hs]
        | ok st =>
          simp only [hs] at he ⊢
          by_cases h2 : f.loaded = true ∧ st.size = f.lastSize ∧ st.modTime = f.lastModTime
          · simp [h2] at he
          · simp only [if_neg h2] at he ⊢
            cases hp : fsys.parseRes with
            | error ep => simp [hp]
            | ok c => simp [hp] at he
  · intro v e s tr hret
    unfold CachedDir.Get at hret
    by_cases h1 : d.loaded = true ∧ now - d.lastLoadTime < maxAge
    · rw [if_pos h1] at hret
      injection hret with hout htr
      injection hout with hv herr hst
      exact Option.noConfusion herr
    · rw [if_neg h1] at hret
      cases ho : dsys.openRes with
      | error eo =>
        simp only [ho] at hret
        injection hret with hout htr
        injection hout with hv herr hst
        exact hst.symm
      | ok u =>
        simp only [ho] at hret
        cases hs : dsys.statRes with
        | error es =>
          simp only [hs] at hret
          injection hret with hout htr
          injection hout with hv herr hst
          exact hst.symm
        | ok st =>
          simp only [hs] at hret
          by_cases h2 : d.loaded = true ∧ st.size = d.lastSize ∧ st.modTime = d.lastModTime
          · rw [if_pos h2] at hret
            injection hret with hout htr
            injection hout with hv herr hst
            exact Option.noConfusion herr
          · rw [if_neg h2] at hret
            by_cases h3 : dsys.isReadDirFile = false
            · rw [if_pos h3] at hret
              injection hret with hout htr
              exact DirOutcome.noConfusion hout
            · rw [if_neg h3] at hret
              cases hp : dsys.readDirRes with
              | error ep =>
                simp only [hp] at hret
                injection hret with hout htr
                injection hout with hv herr hst
                exact hst.symm
              | ok es2 =>
                simp only [hp] at hret
                injection hret with hout htr
                injection hout with hv herr hst
                exact Option.noConfusion herr

/-- Witness for C3 at a concrete entry whose stat step fails. -/
theorem c3_error_leaves_entry_unchanged_witness :
    (CachedFile.Get (T := Nat) (E := Nat) ⟨5, 1, 2, 42⟩ ⟨.ok (), .error 7, .ok 0⟩ 99 10).state =
      ⟨5, 1, 2, 42⟩ ∧
    (⟨5, 1, 2, [3]⟩ : CachedDir Nat) = ⟨5, 1, 2, [3]⟩ :=
  ⟨(c3_error_leaves_entry_unchanged (E := Nat) (D := Nat) ⟨5, 1, 2, 42⟩ ⟨5, 1, 2, [3]⟩
      ⟨.ok (), .error 7, .ok 0⟩ ⟨.ok (), .error 7, false, .ok []⟩ 99 10).1 7 (by decide),
   (c3_error_leaves_entry_unchanged (E := Nat) (T := Nat) ⟨5, 1, 2, 42⟩ ⟨5, 1, 2, [3]⟩
      ⟨.ok (), .error 7, .ok 0⟩ ⟨.ok (), .error 7, false, .ok []⟩ 99 10).2 [3] 7 ⟨5, 1, 2, [3]⟩
      ⟨true, true, false⟩ (by decide)⟩

/-- C6: with `maxAge ≤ 0` the TTL fast path never triggers — since elapsed
time is never negative, `now - lastLoadTime < maxAge` is false — so every
`Get` call proceeds to the open step regardless of how recently the entry was
loaded. -/
theorem c6_nonpositive_max_age_forces_open {T D E : Type} (f : CachedFile T) (d : CachedDir D)
    (fsys : FileSys T E) (dsys : DirSys D E) (now maxAge : Int)
    (hage : maxAge ≤ 0) (hf : f.lastLoadTime ≤ now) (hd : d.lastLoadTime ≤ now) :
    (f.Get fsys now maxAge).trace.opened = true ∧
    (d.Get dsys now maxAge).trace.opened = true := by
  have hnf : ¬ (now - f.lastLoadTime < maxAge) := by omega
  have hnd : ¬ (d.loaded = true ∧ now - d.lastLoadTime < maxAge) := by
    rintro ⟨-, h⟩; omega
  constructor
  · unfold CachedFile.Get
    rw [if_neg hnf]
    cases fsys.openRes with
    | error e => rfl
    | ok u =>
      cases fsys.statRes with
      | error e => rfl
      | ok st =>
        dsimp only
        split
        · rfl
        · cases fsys.parseRes <;> rfl
  · unfold CachedDir.Get
    rw [if_neg hnd]
    cases dsys.openRes with
    | error e => rfl
    | ok u =>
      cases dsys.statRes with
      | error e => rfl
      | ok st =>
        dsimp only
        split
        · rfl
        · split
          · rfl
          · cases dsys.readDirRes <;> rfl

/-- Witness for C6 at a concrete freshly loaded entry and `maxAge = 0`. -/
theorem c6_nonpositive_max_age_forces_open_witness :
    (CachedFile.Get (T := Nat) (E := Nat) ⟨5, 1, 2, 42⟩ ⟨.error 9, .error 9, .error 9⟩
      5 0).trace.opened = true ∧
    (CachedDir.Get (D := Nat) (E := Nat) ⟨5, 1, 2, [3]⟩ ⟨.error 9, .error 9, false, .error 9⟩
      5 0).trace.opened = true :=
  c6_nonpositive_max_age_forces_open ⟨5, 1, 2, 42⟩ ⟨5, 1, 2, [3]⟩ ⟨.error 9, .error 9, .error 9⟩
    ⟨.error 9, .error 9, false, .error 9⟩ 5 0 (by decide) (by decide) (by decide)

/-- C10: a directory `Get` on a never-loaded entry whose handle does not
implement `fs.ReadDirFile`, passing the TTL and stat-validation checks,
panics with "directory doesn't implement ReadDirFile" instead of returning an
error value. -/
theorem c10_non_readdirfile_panics :
    CachedDir.Get (D := Nat) (E := Nat) ⟨0, 0, 0, []⟩ ⟨.ok (), .ok ⟨5, 7⟩, false, .ok [1]⟩ 10 0 =
      ⟨.panicked "directory doesn't implement ReadDirFile", ⟨true, true, false⟩⟩ := by
  decide

/-- C2: every `Get` (file or directory) whose open, stat, or read/parse step
fails returns the last successfully loaded cached value together with exactly
the error produced by the failing step, unchanged. -/
theorem c2_stale_on_error_verbatim {T D E : Type} (f : CachedFile T) (d : CachedDir D)
    (fsys : FileSys T E) (dsys : DirSys D E) (now maxAge : Int) :
    (∀ e : E, (f.Get fsys now maxAge).error = some e →
      (f.Get fsys now maxAge).value = f.content ∧
      (fsys.openRes = .error e ∨ fsys.statRes = .error e ∨ fsys.parseRes = .error e)) ∧
    (∀ (v : List D) (e : E) (s : CachedDir D) (tr : FsTrace),
      d.Get dsys now maxAge = ⟨.ret v (some e) s, tr⟩ →
      v = d.entries ∧
      (dsys.openRes = .error e ∨ dsys.statRes = .error e ∨ dsys.readDirRes = .error e)) := by
  constructor
  · intro e he
    unfold CachedFile.Get at he
    by_cases h1 : now - f.lastLoadTime < maxAge
    · simp [h1] at he
    · simp only [if_neg h1] at he
      cases ho : fsys.openRes with
      | error eo =>
        simp only [ho] at he
        injection he with he'
        refine ⟨?_, .inl (congrArg Except.error he')⟩
        unfold CachedFile.Get
        rw [if_neg h1]
        simp [ho]
      | ok u =>
        simp only [ho] at he
        cases hs : fsys.statRes with
        | error es =>
          simp only [hs] at he
          injection he with he'
          refine ⟨?_, .inr (.inl (congrArg Except.error he'))⟩
          unfold CachedFile.Get
          rw [if_neg h1]
          simp [ho, hs]
        | ok st =>
          simp only [hs] at he
          by_cases h2 : f.loaded = true ∧ st.size = f.lastSize ∧ st.modTime = f.lastModTime
          · simp [h2] at he
          · simp only [if_neg h2] at he
            cases hp : fsys.parseRes with
            | error ep =>
              simp only [hp] at he
              injection he with he'
              refine ⟨?_, .inr (.inr (congrArg Except.error he'))⟩
              unfold CachedFile.Get
              rw [if_neg h1]
              simp [ho, hs, if_neg h2, hp]
            | ok c => simp [hp] at he
  · intro v e s tr hret
    unfold CachedDir.Get at hret
    by_cases h1 : d.loaded = true ∧ now - d.lastLoadTime < maxAge
    · rw [if_pos h1] at hret
      injection hret with hout htr
      injection hout with hv herr hst
      exact Option.noConfusion herr
    · rw [if_neg h1] at hret
      cases ho : dsys.openRes with
      | error eo =>
        simp only [ho] at hret
        injection hret with hout htr
        injection hout with hv herr hst
        injection herr with he'
        exact ⟨hv.symm, .inl (congrArg Except.error he')⟩
      | ok u =>
        simp only [ho] at hret
        cases hs : dsys.statRes with
        | error es =>
          simp only [hs] at hret
          injection hret with hout htr
          injection hout with hv herr hst
          injection herr with he'
          exact ⟨hv.symm, .inr (.inl (congrArg Except.error he'))⟩
        | ok st =>
          simp only [hs] at hret
          by_cases h2 : d.loaded = true ∧ st.size = d.lastSize ∧ st.modTime = d.lastModTime
          · rw [if_pos h2] at hret
            injection hret with hout htr
            injection hout with hv herr hst
            exact Option.noConfusion herr
          · rw [if_neg h2] at hret
            by_cases h3 : dsys.isReadDirFile = false
            · rw [if_pos h3] at hret
              injection hret with hout htr
              exact DirOutcome.noConfusion hout
            · rw [if_neg h3] at hret
              cases hp : dsys.readDirRes with
              | error ep =>
                simp only [hp] at hret
                injection hret with hout htr
                injection hout with hv herr hst
                injection herr with he'
                exact ⟨hv.symm, .inr (.inr (congrArg Except.error he'))⟩
              | ok es2 =>
                simp only [hp] at hret
                injection hret with hout htr
                injection hout with hv herr hst
                exact Option.noConfusion herr

/-- Witness for C2 at a concrete loaded entry whose open step fails. -/
theorem c2_stale_on_error_verbatim_witness :
    (CachedFile.Get (T := Nat) (E := Nat) ⟨5, 1, 2, 42⟩ ⟨.error 7, .ok ⟨0, 0⟩, .ok 0⟩
      99 10).value = 42 ∧
    [3] = (⟨5, 1, 2, [3]⟩ : CachedDir Nat).entries :=
  ⟨((c2_stale_on_error_verbatim (D := Nat) ⟨5, 1, 2, 42⟩ ⟨5, 1, 2, [3]⟩
      ⟨.error 7, .ok ⟨0, 0⟩, .ok 0⟩ ⟨.error 7, .ok ⟨0, 0⟩, false, .ok []⟩ 99 10).1 7
        (by decide)).1,
   ((c2_stale_on_error_verbatim (T := Nat) ⟨5, 1, 2, 42⟩ ⟨5, 1, 2, [3]⟩
      ⟨.error 7, .ok ⟨0, 0⟩, .ok 0⟩ ⟨.error 7, .ok ⟨0, 0⟩, false, .ok []⟩ 99 10).2 [3] 7
        ⟨5, 1, 2, [3]⟩ ⟨true, false, false⟩ (by decide)).1⟩

/-- C4: a `Get` on a previously loaded entry, past the TTL window, whose stat
succeeds with size and mod time exactly equal to `lastSize`/`lastModTime`, is
a validation hit: it refreshes `lastLoadTime` to `now`, leaves
content/entries, `lastSize` and `lastModTime` unchanged, performs no
read/parse, and returns the cached value with no error. -/
theorem c4_validation_hit {T D E : Type} (f : CachedFile T) (d : CachedDir D)
    (fsys : FileSys T E) (dsys : DirSys D E) (now maxAge : Int) (stf std : FileInfo)
    (hfl : f.loaded = true) (hdl : d.loaded = true)
    (hffresh : ¬ (now - f.lastLoadTime < maxAge))
    (hdfresh : ¬ (now - d.lastLoadTime < maxAge))
    (hfo : fsys.openRes = .ok ()) (hfs : fsys.statRes = .ok stf)
    (hdo : dsys.openRes = .ok ()) (hds : dsys.statRes = .ok std)
    (hfsize : stf.size = f.lastSize) (hfmod : stf.modTime = f.lastModTime)
    (hdsize : std.size = d.lastSize) (hdmod : std.modTime = d.lastModTime) :
    f.Get fsys now maxAge =
      ⟨f.content, none, { f with lastLoadTime := now }, ⟨true, true, false⟩⟩ ∧
    d.Get dsys now maxAge =
      ⟨.ret d.entries none { d with lastLoadTime := now }, ⟨true, true, false⟩⟩ := by
  constructor
  · unfold CachedFile.Get
    rw [if_neg hffresh]
    simp only [hfo, hfs]
    rw [if_pos ⟨hfl, hfsize, hfmod⟩]
  · unfold CachedDir.Get
    rw [if_neg (fun h => hdfresh h.2)]
    simp only [hdo, hds]
    rw [if_pos ⟨hdl, hdsize, hdmod⟩]

/-- Witness for C4 at a concrete loaded entry with a matching stat. -/
theorem c4_validation_hit_witness :
    CachedFile.Get (T := Nat) (E := Nat) ⟨5, 1, 2, 42⟩ ⟨.ok (), .ok ⟨1, 2⟩, .error 9⟩ 99 10 =
      ⟨42, none, ⟨99, 1, 2, 42⟩, ⟨true, true, false⟩⟩ ∧
    CachedDir.Get (D := Nat) (E := Nat) ⟨5, 1, 2, [3]⟩ ⟨.ok (), .ok ⟨1, 2⟩, false, .error 9⟩
      99 10 = ⟨.ret [3] none ⟨99, 1, 2, [3]⟩, ⟨true, true, false⟩⟩ :=
  c4_validation_hit ⟨5, 1, 2, 42⟩ ⟨5, 1, 2, [3]⟩ ⟨.ok (), .ok ⟨1, 2⟩, .error 9⟩
    ⟨.ok (), .ok ⟨1, 2⟩, false, .error 9⟩ 99 10 ⟨1, 2⟩ ⟨1, 2⟩ (by decide) (by decide)
    (by decide) (by decide) rfl rfl rfl rfl (by decide) (by decide) (by decide) (by decide)

/-- C5: a `Get` that reaches the read/parse step and succeeds updates
content/entries, `lastSize` and `lastModTime` to the values observed during
this load, sets `lastLoadTime = now` (so the entry counts as loaded, `now`
being a real clock reading, hence nonzero), and returns the newly loaded
value with no error. -/
theorem c5_full_reload_success {T D E : Type} (f : CachedFile T) (d : CachedDir D)
    (fsys : FileSys T E) (dsys : DirSys D E) (now maxAge : Int) (stf std : FileInfo)
    (c : T) (es : List D)
    (hffresh : ¬ (now - f.lastLoadTime < maxAge))
    (hdfresh : ¬ (d.loaded = true ∧ now - d.lastLoadTime < maxAge))
    (hfo : fsys.openRes = .ok ()) (hfs : fsys.statRes = .ok stf)
    (hfmatch : ¬ (f.loaded = true ∧ stf.size = f.lastSize ∧ stf.modTime = f.lastModTime))
    (hfp : fsys.parseRes = .ok c)
    (hdo : dsys.openRes = .ok ()) (hds : dsys.statRes = .ok std)
    (hdmatch : ¬ (d.loaded = true ∧ std.size = d.lastSize ∧ std.modTime = d.lastModTime))
    (hdrd : dsys.isReadDirFile = true) (hdread : dsys.readDirRes = .ok es)
    (hnow : 0 < now) :
    f.Get fsys now maxAge = ⟨c, none, ⟨now, stf.size, stf.modTime, c⟩, ⟨true, true, true⟩⟩ ∧
    CachedFile.loaded ⟨now, stf.size, stf.modTime, c⟩ = true ∧
    d.Get dsys now maxAge =
      ⟨.ret es none ⟨now, std.size, std.modTime, es⟩, ⟨true, true, true⟩⟩ ∧
    CachedDir.loaded (D := D) ⟨now, std.size, std.modTime, es⟩ = true := by
  refine ⟨?_, ?_, ?_, ?_⟩
  · unfold CachedFile.Get
    rw [if_neg hffresh]
    simp only [hfo, hfs]
    rw [if_neg hfmatch]
    simp only [hfp]
  · simp only [CachedFile.loaded, bne_iff_ne, ne_eq]
    omega
  · unfold CachedDir.Get
    rw [if_neg hdfresh]
    simp only [hdo, hds]
    rw [if_neg hdmatch]
    rw [if_neg (by simp [hdrd])]
    simp only [hdread]
  · simp only [CachedDir.loaded, bne_iff_ne, ne_eq]
    omega

/-- Witness for C5 at a concrete never-loaded entry with a successful full
load. -/
theorem c5_full_reload_success_witness :
    CachedFile.Get (T := Nat) (E := Nat) ⟨0, 0, 0, 0⟩ ⟨.ok (), .ok ⟨1, 2⟩, .ok 77⟩ 99 10 =
      ⟨77, none, ⟨99, 1, 2, 77⟩, ⟨true, true, true⟩⟩ ∧
    CachedFile.loaded (⟨99, 1, 2, 77⟩ : CachedFile Nat) = true ∧
    CachedDir.Get (D := Nat) (E := Nat) ⟨0, 0, 0, []⟩ ⟨.ok (), .ok ⟨1, 2⟩, true, .ok [4, 5]⟩
      99 10 = ⟨.ret [4, 5] none ⟨99, 1, 2, [4, 5]⟩, ⟨true, true, true⟩⟩ ∧
    CachedDir.loaded (⟨99, 1, 2, [4, 5]⟩ : CachedDir Nat) = true :=
  c5_full_reload_success ⟨0, 0, 0, 0⟩ ⟨0, 0, 0, []⟩ ⟨.ok (), .ok ⟨1, 2⟩, .ok 77⟩
    ⟨.ok (), .ok ⟨1, 2⟩, true, .ok [4, 5]⟩ 99 10 ⟨1, 2⟩ ⟨1, 2⟩ 77 [4, 5] (by decide)
    (by decide) rfl rfl (by decide) rfl rfl rfl (by decide) rfl rfl (by decide)

/-- Helper: on an error return, `CachedFile.Get` leaves the entry state
unchanged. -/
theorem fileGet_error_state {T E : Type} (f : CachedFile T) (sys : FileSys T E)
    (now maxAge : Int) (e : E) (he : (f.Get sys now maxAge).error = some e) :
    (f.Get sys now maxAge).state = f := by
  unfold CachedFile.Get at he ⊢
  by_cases h1 : now - f.lastLoadTime < maxAge
  · simp [h1] at he
  · simp only [if_neg h1] at he ⊢
    cases ho : sys.openRes with
    | error eo => simp [ho]
    | ok u =>
      simp only [ho] at he ⊢
      cases hs : sys.statRes with
      | error es => simp [hs]
      | ok st =>
        simp only [hs] at he ⊢
        by_cases h2 : f.loaded = true ∧ st.size = f.lastSize ∧ st.modTime = f.lastModTime
        · simp [h2] at he
        · simp only [if_neg h2] at he ⊢
          cases hp : sys.parseRes with
          | error ep => simp [hp]
          | ok c => simp [hp] at he

/-- Helper: if `CachedDir.Get` returns with an error, the returned entry
state is the pre-call entry. -/
theorem dirGet_out_error_state {D E : Type} (d : CachedDir D) (sys : DirSys D E)
    (now maxAge : Int) (v : List D) (e : E) (s : CachedDir D)
    (hret : (d.Get sys now maxAge).out = .ret v (some e) s) : s = d := by
  unfold CachedDir.Get at hret
  by_cases h1 : d.loaded = true ∧ now - d.lastLoadTime < maxAge
  · simp only [if_pos h1] at hret
    injection hret with hv herr hst
    exact Option.noConfusion herr
  · simp only [if_neg h1] at hret
    cases ho : sys.openRes with
    | error eo =>
      simp only [ho] at hret
      injection hret with hv herr hst
      exact hst.symm
    | ok u =>
      simp only [ho] at hret
      cases hs : sys.statRes with
      | error es =>
        simp only [hs] at hret
        injection hret with hv herr hst
        exact hst.symm
      | ok st =>
        simp only [hs] at hret
        by_cases h2 : d.loaded = true ∧ st.size = d.lastSize ∧ st.modTime = d.lastModTime
        · simp only [if_pos h2] at hret
          injection hret with hv herr hst
          exact Option.noConfusion herr
        · simp only [if_neg h2] at hret
          by_cases h3 : sys.isReadDirFile = false
          · simp only [if_pos h3] at hret
            exact DirOutcome.noConfusion hret
          · simp only [if_neg h3] at hret
            cases hp : sys.readDirRes with
            | error ep =>
              simp only [hp] at hret
              injection hret with hv herr hst
              exact hst.symm
            | ok es2 =>
              simp only [hp] at hret
              injection hret with hv herr hst
              exact Option.noConfusion herr

/-- Helper: on an error return, `ConcurrentCachedFile.Get` leaves the entry
state unchanged. -/
theorem concFileGet_error_state {T E : Type} (f : CachedFile T) (sys : FileSys T E)
    (now maxAge : Int) (e : E)
    (he : (ConcurrentCachedFile.Get f sys now maxAge).error = some e) :
    (ConcurrentCachedFile.Get f sys now maxAge).state = f := by
  unfold ConcurrentCachedFile.Get at he ⊢
  by_cases h : f.loaded = true ∧ now - f.lastLoadTime < maxAge
  · simp [h] at he
  · rw [if_neg h] at he ⊢
    exact fileGet_error_state f sys now maxAge e he

/-- Helper: if `ConcurrentCachedDir.Get` returns with an error, the returned
entry state is the pre-call entry. -/
theorem concDirGet_out_error_state {D E : Type} (d : CachedDir D) (sys : DirSys D E)
    (now maxAge : Int) (v : List D) (e : E) (s : CachedDir D)
    (hret : (ConcurrentCachedDir.Get d sys now maxAge).out = .ret v (some e) s) : s = d := by
  unfold ConcurrentCachedDir.Get at hret
  by_cases h : d.loaded = true ∧ now - d.lastLoadTime < maxAge
  · simp only [if_pos h] at hret
    injection hret with hv herr hst
    exact Option.noConfusion herr
  · rw [if_neg h] at hret
    exact dirGet_out_error_state d sys now maxAge v e s hret

/-- C7: when a `Get` through the single-threaded `FsCache` returns an error,
the entry for that path is removed from the registry, so a subsequent lookup
finds no entry; when a `Get` through `ConcurrentFsCache` returns an error, an
entry already present in the registry remains there with its pre-call
(last-good) state, and a never-before-seen entry that fails its first load is
not inserted. -/
theorem c7_eviction_on_error_by_mode {T D E : Type} [Inhabited T]
    (cache : FsCache T D) (ccache : ConcurrentFsCache T D) (file dir : String)
    (fsys : FileSys T E) (dsys : DirSys D E) (now maxAge : Int) (useMaxAge : Bool) :
    (∀ v e cache', cache.GetFileWithMaxAge file fsys now maxAge = (v, some e, cache') →
      cache'.GetFileEntry file = none) ∧
    (∀ v e cache', cache.GetDirWithMaxAge dir dsys now maxAge = .ret v (some e) cache' →
      cache'.GetDirEntry dir = none) ∧
    (∀ c, ccache.files (cleanPath file) = some c →
      ∀ v e ccache', ccache.getFile file fsys now maxAge useMaxAge = (v, some e, ccache') →
        ccache'.GetFileEntry file = some c) ∧
    (ccache.files (cleanPath file) = none →
      ∀ v e ccache', ccache.getFile file fsys now maxAge useMaxAge = (v, some e, ccache') →
        ccache'.GetFileEntry file = none) ∧
    (∀ c, ccache.dirs (cleanPath dir) = some c →
      ∀ v e ccache', ccache.getDir dir dsys now maxAge useMaxAge = .ret v (some e) ccache' →
        ccache'.GetDirEntry dir = some c) ∧
    (ccache.dirs (cleanPath dir) = none →
      ∀ v e ccache', ccache.getDir dir dsys now maxAge useMaxAge = .ret v (some e) ccache' →
        ccache'.GetDirEntry dir = none) := by
  refine ⟨?_, ?_, ?_, ?_, ?_, ?_⟩
  · intro v e cache' hcall
    simp only [FsCache.GetFileWithMaxAge] at hcall
    cases herr : (CachedFile.Get ((cache.files (cleanPath file)).getD ⟨0, 0, 0, default⟩)
        fsys now maxAge).error with
    | none =>
      simp only [herr] at hcall
      injection hcall with h1 h2
      injection h2 with h21 h22
      exact Option.noConfusion h21
    | some e' =>
      simp only [herr] at hcall
      injection hcall with h1 h2
      injection h2 with h21 h22
      rw [← h22]
      simp [FsCache.GetFileEntry]
  · intro v e cache' hcall
    simp only [FsCache.GetDirWithMaxAge] at hcall
    cases hout : (CachedDir.Get ((cache.dirs (cleanPath dir)).getD ⟨0, 0, 0, []⟩)
        dsys now maxAge).out with
    | panicked msg =>
      simp only [hout] at hcall
      exact DirCallOutcome.noConfusion hcall
    | ret v' err' s' =>
      cases err' with
      | none =>
        simp only [hout] at hcall
        injection hcall with h1 h2 h3
        exact Option.noConfusion h2
      | some e' =>
        simp only [hout] at hcall
        injection hcall with h1 h2 h3
        rw [← h3]
        simp [FsCache.GetDirEntry]
  · intro c hc v e ccache' hcall
    simp only [ConcurrentFsCache.getFile, hc] at hcall
    injection hcall with h1 h2
    injection h2 with h21 h22
    rw [← h22]
    have hst := concFileGet_error_state c fsys now (if useMaxAge then maxAge else ccache.maxAge)
      e h21
    simp [ConcurrentFsCache.GetFileEntry, hst]
  · intro hc v e ccache' hcall
    simp only [ConcurrentFsCache.getFile, hc] at hcall
    cases herr : (ConcurrentCachedFile.Get (⟨0, 0, 0, default⟩ : CachedFile T) fsys now
        (if useMaxAge then maxAge else ccache.maxAge)).error with
    | none =>
      simp only [herr] at hcall
      injection hcall with h1 h2
      injection h2 with h21 h22
      exact Option.noConfusion h21
    | some e' =>
      simp only [herr] at hcall
      injection hcall with h1 h2
      injection h2 with h21 h22
      rw [← h22]
      exact hc
  · intro c hc v e ccache' hcall
    simp only [ConcurrentFsCache.getDir, hc] at hcall
    cases hout : (ConcurrentCachedDir.Get c dsys now
        (if useMaxAge then maxAge else ccache.maxAge)).out with
    | panicked msg =>
      simp only [hout] at hcall
      exact DirCallOutcome.noConfusion hcall
    | ret v' err' s' =>
      simp only [hout] at hcall
      injection hcall with h1 h2 h3
      rw [← h3]
      have hst : s' = c := concDirGet_out_error_state c dsys now
        (if useMaxAge then maxAge else ccache.maxAge) v' e s' (h2 ▸ hout)
      simp [ConcurrentFsCache.GetDirEntry, hst]
  · intro hc v e ccache' hcall
    simp only [ConcurrentFsCache.getDir, hc] at hcall
    cases hout : (ConcurrentCachedDir.Get (⟨0, 0, 0, []⟩ : CachedDir D) dsys now
        (if useMaxAge then maxAge else ccache.maxAge)).out with
    | panicked msg =>
      simp only [hout] at hcall
      exact DirCallOutcome.noConfusion hcall
    | ret v' err' s' =>
      cases err' with
      | none =>
        simp only [hout] at hcall
        injection hcall with h1 h2 h3
        exact Option.noConfusion h2
      | some e' =>
        simp only [hout] at hcall
        injection hcall with h1 h2 h3
        rw [← h3]
        exact hc

/-- Witness for C7: a failing single-threaded file `Get` leaves no entry; a
failing concurrent first load on a never-seen path inserts nothing. -/
theorem c7_eviction_on_error_by_mode_witness :
    FsCache.GetFileEntry (T := Nat) (D := Nat)
      ⟨0, fun _ => none, fun p => if p = cleanPath "a" then none else none⟩ "a" = none ∧
    ConcurrentFsCache.GetFileEntry (T := Nat) (D := Nat)
      ⟨0, fun _ => none, fun _ => none⟩ "a" = none :=
  ⟨(c7_eviction_on_error_by_mode (E := Nat)
      ⟨0, fun _ => none, fun _ => none⟩ ⟨0, fun _ => none, fun _ => none⟩ "a" "d"
      ⟨.error 7, .ok ⟨0, 0⟩, .ok 0⟩ ⟨.error 7, .ok ⟨0, 0⟩, false, .ok []⟩ 99 10 true).1
      0 7 ⟨0, fun _ => none, fun p => if p = cleanPath "a" then none else none⟩ rfl,
   (c7_eviction_on_error_by_mode (E := Nat)
      ⟨0, fun _ => none, fun _ => none⟩ ⟨0, fun _ => none, fun _ => none⟩ "a" "d"
      ⟨.error 7, .ok ⟨0, 0⟩, .ok 0⟩ ⟨.error 7, .ok ⟨0, 0⟩, false, .ok []⟩ 99 10 true).2.2.2.1
      rfl 0 7 ⟨0, fun _ => none, fun _ => none⟩ rfl⟩

/-- C8: every public cache operation keys its registry by `cleanPath`: two
caller-supplied paths with the same canonical form refer to the same cache
entry, so every operation treats them identically. -/
theorem c8_canonical_path_keying {T D E : Type} [Inhabited T]
    (p₁ p₂ : String) (h : cleanPath p₁ = cleanPath p₂)
    (cache : FsCache T D) (ccache : ConcurrentFsCache T D)
    (fsys : FileSys T E) (dsys : DirSys D E) (now maxAge : Int) (useMaxAge : Bool) :
    cache.GetFileEntry p₁ = cache.GetFileEntry p₂ ∧
    cache.GetDirEntry p₁ = cache.GetDirEntry p₂ ∧
    ccache.GetFileEntry p₁ = ccache.GetFileEntry p₂ ∧
    ccache.GetDirEntry p₁ = ccache.GetDirEntry p₂ ∧
    cache.GetFileWithMaxAge p₁ fsys now maxAge = cache.GetFileWithMaxAge p₂ fsys now maxAge ∧
    cache.GetDirWithMaxAge p₁ dsys now maxAge = cache.GetDirWithMaxAge p₂ dsys now maxAge ∧
    ccache.getFile p₁ fsys now maxAge useMaxAge = ccache.getFile p₂ fsys now maxAge useMaxAge ∧
    ccache.getDir p₁ dsys now maxAge useMaxAge = ccache.getDir p₂ dsys now maxAge useMaxAge := by
  refine ⟨?_, ?_, ?_, ?_, ?_, ?_, ?_, ?_⟩ <;>
    simp only [FsCache.GetFileEntry, FsCache.GetDirEntry, ConcurrentFsCache.GetFileEntry,
      ConcurrentFsCache.GetDirEntry, FsCache.GetFileWithMaxAge, FsCache.GetDirWithMaxAge,
      ConcurrentFsCache.getFile, ConcurrentFsCache.getDir, h]

/-- Witness for C8: `"a/./b"` and `"a/b"` clean to the same key, so lookups
agree. -/
theorem c8_canonical_path_keying_witness :
    FsCache.GetFileEntry (T := Nat) (D := Nat) ⟨0, fun _ => none, fun _ => none⟩ "a/./b" =
      FsCache.GetFileEntry (T := Nat) (D := Nat) ⟨0, fun _ => none, fun _ => none⟩ "a/b" :=
  (c8_canonical_path_keying (E := Nat) "a/./b" "a/b" (by decide)
    ⟨0, fun _ => none, fun _ => none⟩ ⟨0, fun _ => none, fun _ => none⟩
    ⟨.ok (), .ok ⟨0, 0⟩, .ok 0⟩ ⟨.ok (), .ok ⟨0, 0⟩, true, .ok []⟩ 99 10 true).1

/-- Helper: `opener` on any path of the form `"/" ++ r` succeeds (never
panics). -/
theorem opener_append_rooted (r : String) : ∃ q : String, opener ("/" ++ r) = .ok q := by
  unfold opener
  by_cases h : ("/" ++ r : String) = "/"
  · rw [if_pos h]
    exact ⟨".", rfl⟩
  · rw [if_neg h]
    have hdata : ("/" ++ r : String).data = '/' :: r.data := by
      rw [String.data_append]
      rfl
    rw [hdata]
    exact ⟨String.mk r.data, rfl⟩

/-- C9: `cleanPath` always produces a path beginning with `"/"`, so the panic
branch of `opener` ("path not cleaned correctly") is unreachable for every
path produced by `cleanPath` — which is every path the public cache
operations pass to `opener`. -/
theorem c9_cleanPath_rooted_opener_never_panics (p : String) :
    (∃ rest : String, cleanPath p = "/" ++ rest) ∧
    ∃ q : String, opener (cleanPath p) = .ok q :=
  ⟨⟨String.intercalate "/" (resolveDots [] (splitSlash [] ("/" ++ p).data)), rfl⟩,
   opener_append_rooted (String.intercalate "/" (resolveDots [] (splitSlash [] ("/" ++ p).data)))⟩
